import Mathlib

/-!
Verification development for the finlytics backend core: the multi-method
anomaly consolidation engine (src/backend/agents/anomaly_detection_agent.py)
and the real-time synchronization service (src/backend/services/realtime_sync.py).

Floating point amounts and scores are embedded as rationals; dates are embedded
as whole minutes since an epoch (the code only uses dates for ordering, hour
extraction and minute differences).
-/

set_option allowUnsafeReducibility true

attribute [local semireducible] Rat.add Rat.sub Rat.mul Rat.inv

namespace Finlytics

/-! ### Anomaly engine: data model -/

/-- Severity levels used by every detector, ordered low < medium < high. -/
inductive Severity where
  | low
  | medium
  | high
deriving DecidableEq, Repr

/-- Numeric rank of a severity, from severity_order in _consolidate_anomalies
(low 0, medium 1, high 2; .get default 0). -/
def sevRank : Severity → ℕ
  | .low => 0
  | .medium => 1
  | .high => 2

/-- A transaction row as the engine consumes it: amount (numeric), category,
and a timestamp in whole minutes since an epoch. -/
structure Txn where
  amount : ℚ
  category : String
  dateMin : ℤ
deriving DecidableEq, Repr

/-- Hour-of-day of a transaction (pandas .dt.hour), always in [0, 23]. -/
def hourOf (t : Txn) : ℤ :=
  (t.dateMin.ediv 60).emod 24

/-- One raw detector hit, mirroring the anomaly dicts each detection method
returns: target row label, method name, score, severity, optional reason
(the isolation-forest dicts carry no reason key). -/
structure RawFlag where
  index : ℕ
  method : String
  score : ℚ
  severity : Severity
  reason : Option String := none
deriving DecidableEq, Repr

/-- External pieces the engine calls that cannot be embedded exactly:
the sklearn IsolationForest fit/predict step (an opaque library model, which
may also raise), and the real square root used for the z-score magnitude
(irrational in general). Every theorem below is independent of both. -/
structure EngineParams where
  isoModelE : List (ℕ × Txn) → Except String (List RawFlag)
  sqrtQ : ℚ → ℚ

/-! ### Anomaly engine: pandas numerics
(Series.mean, Series.std with ddof 1, Series.quantile) -/

/-- Arithmetic mean of a list of rationals (pandas Series.mean; callers always
guard against the empty case). -/
def listMean (xs : List ℚ) : ℚ :=
  xs.sum / xs.length

/-- Sample variance with ddof 1 (the square of pandas Series.std). The code
only ever tests the sign of std, and std > 0 iff the sample variance > 0. -/
def sampleVar (xs : List ℚ) : ℚ :=
  if xs.length ≤ 1 then 0
  else (xs.map (fun x => (x - listMean xs) ^ 2)).sum / (xs.length - 1)

/-- pandas Series.quantile with the default linear interpolation: with the
values sorted ascending, position h = q * (n - 1), and the result interpolates
between the entries at positions floor h and floor h + 1. -/
def quantile (xs : List ℚ) (q : ℚ) : ℚ :=
  let s := List.insertionSort (· ≤ ·) xs
  let n := s.length
  if n = 0 then 0
  else
    let pos : ℚ := q * (n - 1)
    let f : ℕ := (Int.floor pos).toNat
    let fr : ℚ := pos - f
    let lo := s.getD f 0
    let hi := s.getD (f + 1) 0
    lo + fr * (hi - lo)

/-! ### Anomaly engine: feature frame

_engineer_features concatenates historical rows before current rows
(pd.concat with ignore_index, so row labels are positions in the combined
frame), and, when the combined frame has more than 7 rows, sorts it by date
while keeping the original labels. The list below carries (label, row) pairs:
detectors report labels, as the source does through DataFrame .index. -/

/-- Sort of a labeled frame by date (sort_values of the date column; pandas
uses quicksort, whose order on equal dates is unspecified — embedded as a
stable sort; no claim concerns equal-date ties). -/
def sortByDate (fs : List (ℕ × Txn)) : List (ℕ × Txn) :=
  List.insertionSort (fun a b => a.2.dateMin ≤ b.2.dateMin) fs

/-- The labeled feature frame: historical rows then current rows, labeled by
position in the combined frame; date-sorted when longer than 7 rows. -/
def engineerFeatures (current hist : List Txn) : List (ℕ × Txn) :=
  let allRows := if hist.isEmpty then current else hist ++ current
  let labeled := allRows.enum
  if allRows.length > 7 then sortByDate labeled else labeled

/-! ### Anomaly engine: the four detectors -/

/-- _statistical_outlier_detection: for frames with more than 4 rows, flag
rows whose amount falls below Q1 - 1.5 IQR or above Q3 + 1.5 IQR; severity is
high when the amount is beyond 3 IQR of Q1/Q3, else medium; the score is the
absolute distance from the median.  Reason strings here and in the other
detectors drop the interpolated numeric values of the source's f-strings;
no claim depends on reason texts. -/
def statisticalOutlierDetection (fs : List (ℕ × Txn)) : List RawFlag :=
  if fs.length > 4 then
    let amounts := fs.map (fun lt => lt.2.amount)
    let q1 := quantile amounts (1 / 4)
    let q3 := quantile amounts (3 / 4)
    let iqr := q3 - q1
    let lowerBound := q1 - 3 / 2 * iqr
    let upperBound := q3 + 3 / 2 * iqr
    let med := quantile amounts (1 / 2)
    fs.filterMap (fun lt =>
      if lt.2.amount < lowerBound ∨ lt.2.amount > upperBound then
        some { index := lt.1
               method := "statistical_iqr"
               score := |lt.2.amount - med|
               severity := if lt.2.amount > q3 + 3 * iqr ∨ lt.2.amount < q1 - 3 * iqr
                           then .high else .medium
               reason := some "Amount is outside normal range" }
      else none)
  else []

/-- _zscore_detection: for frames with more than 2 rows and positive std,
flag rows with z-score magnitude above 3 (threshold amount_zscore), severity
high above 4.  The guards and thresholds are stated on squared quantities,
which is equivalent over the reals: std > 0 iff the sample variance v > 0,
and for v > 0, the magnitude of (x - m) / sqrt v exceeds c iff
(x - m)^2 > c^2 * v.  The stored score is the magnitude itself,
sqrt((x - m)^2 / v), through the square-root oracle. -/
def zscoreDetection (p : EngineParams) (fs : List (ℕ × Txn)) : List RawFlag :=
  if fs.length > 2 then
    let amounts := fs.map (fun lt => lt.2.amount)
    let m := listMean amounts
    let v := sampleVar amounts
    if v > 0 then
      fs.filterMap (fun lt =>
        if (lt.2.amount - m) ^ 2 > 9 * v then
          some { index := lt.1
                 method := "zscore"
                 score := p.sqrtQ ((lt.2.amount - m) ^ 2 / v)
                 severity := if (lt.2.amount - m) ^ 2 > 16 * v then .high else .medium
                 reason := some "Amount has a large Z-score" }
        else none)
    else []
  else []

/-- _business_rule_detection, three sub-rules appended in source order:
(1) with non-empty historical data, amounts above twice the historical 95th
percentile (severity high, score amount / percentile);
(2) rows whose hour is in [2, 5] (severity medium, score 1);
(3) with more than one row, rows of the date-sorted frame whose gap to the
previous row is under 5 minutes (severity medium, score 1; the first sorted
row has no previous gap and is never flagged). -/
def businessRuleDetection (fs : List (ℕ × Txn)) (hist : List Txn) : List RawFlag :=
  let rule1 :=
    if hist.isEmpty then []
    else
      let h95 := quantile (hist.map Txn.amount) (19 / 20)
      fs.filterMap (fun lt =>
        if lt.2.amount > h95 * 2 then
          some { index := lt.1
                 method := "business_rule_large_amount"
                 score := lt.2.amount / h95
                 severity := Severity.high
                 reason := some "Transaction amount is unusually large" }
        else none)
  let rule2 :=
    fs.filterMap (fun lt =>
      if 2 ≤ hourOf lt.2 ∧ hourOf lt.2 ≤ 5 then
        some { index := lt.1
               method := "business_rule_unusual_time"
               score := 1
               severity := Severity.medium
               reason := some "Transaction at unusual hour" }
      else none)
  let rule3 :=
    if fs.length > 1 then
      let sorted := sortByDate fs
      (sorted.zip sorted.tail).filterMap (fun pq =>
        if ((pq.2.2.dateMin - pq.1.2.dateMin : ℤ) : ℚ) < 5 then
          some { index := pq.2.1
                 method := "business_rule_rapid_transactions"
                 score := 1
                 severity := Severity.medium
                 reason := some "Multiple transactions in short time period" }
        else none)
    else []
  rule1 ++ rule2 ++ rule3

/-- The isolation-forest detector body: fewer than 10 rows short-circuits to
no flags before the try block; otherwise the sklearn fit/predict step runs and
may raise. -/
def isolationForestBody (p : EngineParams) (fs : List (ℕ × Txn)) :
    Except String (List RawFlag) :=
  if fs.length < 10 then .ok [] else p.isoModelE fs

/-! ### Anomaly engine: consolidation (_consolidate_anomalies) -/

/-- The per-index accumulator entry built while grouping raw flags
(the anomaly_by_index dict values, in insertion order). -/
structure PendingRec where
  idx : ℕ
  data : Txn
  methods : List String
  scores : List ℚ
  reasons : List String
  maxSev : Severity
deriving DecidableEq, Repr

/-- One consolidated anomaly record. -/
structure Consolidated where
  transaction_index : ℕ
  transaction_data : Txn
  detection_methods : List String
  composite_score : ℚ
  confidence : ℚ
  severity : Severity
  reasons : List String
  method_count : ℕ
deriving DecidableEq, Repr

/-- A placeholder row; never observable, because transaction data is looked up
only under an index-in-range guard. -/
def dummyTxn : Txn := { amount := 0, category := "", dateMin := 0 }

/-- Severity update step: replace the running maximum only when the new
severity ranks strictly higher. -/
def bumpSev (cur new : Severity) : Severity :=
  if sevRank cur < sevRank new then new else cur

/-- Append one raw flag to an existing grouped entry: method, score and
reason are appended (a missing reason contributes the empty string) and the
running severity maximum is updated. -/
def updRec (pr : PendingRec) (f : RawFlag) : PendingRec :=
  { pr with
    methods := pr.methods ++ [f.method]
    scores := pr.scores ++ [f.score]
    reasons := pr.reasons ++ [f.reason.getD ""]
    maxSev := bumpSev pr.maxSev f.severity }

/-- A fresh grouped entry for a first-seen index, seeded from the current
batch row at that index and immediately fed the flag. -/
def freshRec (current : List Txn) (f : RawFlag) : PendingRec :=
  updRec { idx := f.index
           data := current.getD f.index dummyTxn
           methods := []
           scores := []
           reasons := []
           maxSev := Severity.low } f

/-- Process one raw flag against the grouping accumulator: if the index is
already present, append method/score/reason and update the severity; if it is
new and within the current batch length, append a fresh entry seeded from the
current batch row at that index; an out-of-range new index is dropped. -/
def addFlag (current : List Txn) (acc : List PendingRec) (f : RawFlag) :
    List PendingRec :=
  if acc.any (fun pr => pr.idx = f.index) then
    acc.map (fun pr => if pr.idx = f.index then updRec pr f else pr)
  else if f.index < current.length then
    acc ++ [freshRec current f]
  else acc

/-- Grouping pass of _consolidate_anomalies: iterate the method groups in
order and their flags in order (the nested for loops over the results dict). -/
def consolidatePending (results : List (String × List RawFlag))
    (current : List Txn) : List PendingRec :=
  results.foldl (fun acc grp => grp.2.foldl (addFlag current) acc) []

/-- Finalization of one grouped entry: composite score is the mean of the
collected scores (0 when empty), confidence divides the length of the
collected methods list by the number of method groups, reasons are
de-duplicated (Python builds a set; order of the de-duplicated reasons is not
specified there, here first occurrences are kept). -/
def finalizeRec (nMethods : ℕ) (pr : PendingRec) : Consolidated :=
  { transaction_index := pr.idx
    transaction_data := pr.data
    detection_methods := pr.methods
    composite_score := if pr.scores = [] then 0 else listMean pr.scores
    confidence := (pr.methods.length : ℚ) / (nMethods : ℚ)
    severity := pr.maxSev
    reasons := pr.reasons.eraseDups
    method_count := pr.methods.length }

/-- The consolidated list before ranking, in first-encounter order. -/
def consolidateUnsorted (results : List (String × List RawFlag))
    (current : List Txn) : List Consolidated :=
  (consolidatePending results current).map (finalizeRec results.length)

/-- Ordering used for the final ranking: higher composite score first. -/
def consolidateLE (a b : Consolidated) : Prop :=
  b.composite_score ≤ a.composite_score

instance : DecidableRel consolidateLE :=
  fun a b => inferInstanceAs (Decidable (b.composite_score ≤ a.composite_score))

/-- _consolidate_anomalies: group, finalize, then sort by composite score,
highest first, with a stable sort (Python list.sort). -/
def consolidate (results : List (String × List RawFlag))
    (current : List Txn) : List Consolidated :=
  List.insertionSort consolidateLE (consolidateUnsorted results current)

/-- The order in which in-range transaction indices are first encountered
while walking the raw flags of all method groups in order. -/
def addIdx (n : ℕ) (seen : List ℕ) (f : RawFlag) : List ℕ :=
  if f.index ∈ seen then seen
  else if f.index < n then seen ++ [f.index]
  else seen

/-- First-encounter order of the flagged (in-range) indices. -/
def encounterOrder (results : List (String × List RawFlag)) (n : ℕ) : List ℕ :=
  results.foldl (fun seen grp => grp.2.foldl (addIdx n) seen) []

/-! ### Anomaly engine: the full pipeline with its failure structure

_run_multiple_detection_methods has no try blocks of its own; of the four
detectors only the isolation-forest one wraps its body in try/except
(returning no flags on failure).  detect_anomalies wraps everything in a
top-level try/except that turns any escaped exception into an error result. -/

/-- Result shape of detect_anomalies: either the normal payload (anomalies
plus the list of method names run) or the error dict produced by the
top-level except branch. -/
inductive DetectResult where
  | ok (anomalies : List Consolidated) (methods_run : List String)
  | err (message : String)
deriving DecidableEq, Repr

/-- _run_multiple_detection_methods over the outcomes of the four detector
bodies, run in source order.  The isolation-forest body is recovered to no
flags by its own except branch; an exception escaping any of the other three
bodies propagates (the remaining detectors never run). -/
def runDetectionMethodsE (isoBody statBody zBody bizBody : Except String (List RawFlag)) :
    Except String (List (String × List RawFlag)) :=
  let isoFlags := match isoBody with
    | .ok flags => flags
    | .error _ => []
  match statBody with
  | .error e => .error e
  | .ok statFlags =>
    match zBody with
    | .error e => .error e
    | .ok zFlags =>
      match bizBody with
      | .error e => .error e
      | .ok bizFlags =>
        .ok [("isolation_forest", isoFlags), ("statistical", statFlags),
             ("zscore", zFlags), ("business_rules", bizFlags)]

/-- detect_anomalies on detector-body outcomes: empty current batch
short-circuits to a zero-anomaly result before any detector runs; otherwise
the detectors run and an escaped exception becomes an error result. -/
def detectAnomaliesE (isoBody statBody zBody bizBody : Except String (List RawFlag))
    (current : List Txn) : DetectResult :=
  if current.isEmpty then .ok [] []
  else
    match runDetectionMethodsE isoBody statBody zBody bizBody with
    | .ok results => .ok (consolidate results current) (results.map Prod.fst)
    | .error e => .err e

/-- The full embedded pipeline of detect_anomalies: engineer the feature
frame, run the four detectors over it (the three embeddable ones never raise),
consolidate. -/
def detectAnomalies (p : EngineParams) (current hist : List Txn) : DetectResult :=
  let features := engineerFeatures current hist
  detectAnomaliesE (isolationForestBody p features)
    (.ok (statisticalOutlierDetection features))
    (.ok (zscoreDetection p features))
    (.ok (businessRuleDetection features hist))
    current

/-- Claim-side reading of the statistical IQR rule (C5 wording): flag amounts
outside the interval from Q1 - 1.5 IQR to Q1 + 1.5 IQR.  Kept separate from
the source translation above for comparison. -/
def specStatisticalOutlierFlagged (fs : List (ℕ × Txn)) : List ℕ :=
  if fs.length > 4 then
    let amounts := fs.map (fun lt => lt.2.amount)
    let q1 := quantile amounts (1 / 4)
    let q3 := quantile amounts (3 / 4)
    let iqr := q3 - q1
    fs.filterMap (fun lt =>
      if lt.2.amount < q1 - 3 / 2 * iqr ∨ lt.2.amount > q1 + 3 / 2 * iqr then
        some lt.1
      else none)
  else []

/-! ### Realtime sync: payload values

Event payloads are Python dicts; values relevant to the embedded handlers are
null, booleans, numbers, strings and nested dicts.  Truthiness follows Python:
None, False, 0, the empty string and the empty dict are falsy. -/

inductive Value where
  | vnull
  | vbool (b : Bool)
  | vnum (q : ℚ)
  | vstr (s : String)
  | vdict (entries : List (String × Value))

/-- Python truthiness of a value. -/
def truthy : Value → Bool
  | .vnull => false
  | .vbool b => b
  | .vnum q => decide (q ≠ 0)
  | .vstr s => decide (s ≠ "")
  | .vdict es => !es.isEmpty

/-- dict.get with no default: None (here: an absent Option) when the key is
missing.  Dicts are built with distinct keys, matching Python dict keys. -/
def pyGet (es : List (String × Value)) (k : String) : Option Value :=
  (es.find? (fun e => e.1 = k)).map Prod.snd

/-- Truthiness of a dict.get result (missing key is falsy, like None). -/
def truthyOpt : Option Value → Bool
  | none => false
  | some v => truthy v

/-- Python str() as used in the one f-string the handlers build
(the vendor name interpolated into a description).  Only string values are
rendered; no claim depends on the rendering of other values. -/
def pyStr : Value → String
  | .vstr s => s
  | _ => "object"

/-- Stand-in for datetime.now().isoformat(): an unspecified current-time
string; no claim depends on its value. -/
def nowIso : String := "1970-01-01T00:00:00"

/-! ### Realtime sync: events -/

/-- The fixed event-kind enumeration of the sync service. -/
inductive EventType where
  | transaction_added
  | transaction_updated
  | transaction_deleted
  | receipt_processed
  | goal_created
  | goal_updated
  | goal_progress_updated
  | budget_updated
  | milestone_achieved
  | auto_save_triggered
deriving DecidableEq, Repr

/-- The string-stable wire name of an event kind (the enum value). -/
def EventType.wireName : EventType → String
  | .transaction_added => "transaction_added"
  | .transaction_updated => "transaction_updated"
  | .transaction_deleted => "transaction_deleted"
  | .receipt_processed => "receipt_processed"
  | .goal_created => "goal_created"
  | .goal_updated => "goal_updated"
  | .goal_progress_updated => "goal_progress_updated"
  | .budget_updated => "budget_updated"
  | .milestone_achieved => "milestone_achieved"
  | .auto_save_triggered => "auto_save_triggered"

/-- A SyncEvent record. -/
structure SyncEvent where
  id : String
  event_type : EventType
  user_id : String
  data : List (String × Value)
  timestamp : String
  processed : Bool
  related_entities : List String

/-- Event construction inside emit_event: a fresh id and the current
timestamp are supplied by the caller of the model; processed always starts
false (the dataclass default). -/
def mkSyncEvent (id : String) (et : EventType) (uid : String)
    (data : List (String × Value)) (rel : List String) (ts : String) : SyncEvent :=
  { id := id, event_type := et, user_id := uid, data := data,
    timestamp := ts, processed := false, related_entities := rel }

/-- The serialized event object inside a wire message (SyncEvent.to_dict). -/
structure WireEvent where
  id : String
  event_type : String
  user_id : String
  data : List (String × Value)
  timestamp : String
  processed : Bool
  related_entities : List String

/-- SyncEvent.to_dict: all fields verbatim, the kind as its wire name,
the processed flag as it is at serialization time. -/
def SyncEvent.toWire (e : SyncEvent) : WireEvent :=
  { id := e.id, event_type := e.event_type.wireName, user_id := e.user_id,
    data := e.data, timestamp := e.timestamp, processed := e.processed,
    related_entities := e.related_entities }

/-- One WebSocket message: a type tag and the serialized event. -/
structure WireMessage where
  msgType : String
  event : WireEvent

/-- An emit_event call made during event handling (the user id is always the
handled event's own user id in every handler). -/
structure EmitCall where
  event_type : EventType
  data : List (String × Value)
  related : List String

/-! ### Realtime sync: kind-specific handlers -/

/-- _handle_receipt_processed.  With truthy success and truthy parsed_data,
one transaction_added event is synthesized from the parsed fields (a missing
total defaults to amount 0) with related entities budget and goal.  A truthy
parsed_data that is not a dict makes the attribute access parsed_data.get
raise.  Otherwise nothing is emitted. -/
def handleReceiptProcessed (data : List (String × Value)) :
    Except String (List EmitCall) :=
  if truthyOpt (pyGet data "success") && truthyOpt (pyGet data "parsed_data") then
    match pyGet data "parsed_data" with
    | some (.vdict pd) =>
      .ok [{ event_type := .transaction_added
             data := [("amount", (pyGet pd "total").getD (.vnum 0)),
                      ("category", (pyGet pd "category").getD (.vstr "Unknown")),
                      ("description",
                        .vstr ("Receipt from " ++ pyStr ((pyGet pd "vendor").getD (.vstr "Unknown")))),
                      ("date", (pyGet pd "date").getD (.vstr nowIso)),
                      ("type", .vstr "expense"),
                      ("receipt_id", (pyGet data "receipt_id").getD .vnull),
                      ("receipt_url", (pyGet data "receipt_url").getD .vnull)]
             related := ["budget", "goal"] }]
    | _ => .error "AttributeError"
  else .ok []

/-- _update_budget_from_transaction: expense transactions emit a
budget_updated event. -/
def updateBudgetFromTransaction (tx : List (String × Value)) : List EmitCall :=
  if pyGet tx "type" matches some (.vstr "expense") then
    [{ event_type := .budget_updated
       data := [("category", (pyGet tx "category").getD (.vstr "Unknown")),
                ("amount_spent", (pyGet tx "amount").getD (.vnum 0)),
                ("transaction_id", (pyGet tx "id").getD .vnull)]
       related := [] }]
  else []

/-- _update_goal_progress_from_transaction: savings or income transactions
emit a goal_progress_updated event (the condition is re-checked inside). -/
def updateGoalProgressFromTransaction (tx : List (String × Value)) : List EmitCall :=
  if pyGet tx "category" matches some (.vstr "Savings") then
    [{ event_type := .goal_progress_updated
       data := [("amount_added", (pyGet tx "amount").getD (.vnum 0)),
                ("transaction_id", (pyGet tx "id").getD .vnull),
                ("source", .vstr "transaction")]
       related := [] }]
  else if pyGet tx "type" matches some (.vstr "income") then
    [{ event_type := .goal_progress_updated
       data := [("amount_added", (pyGet tx "amount").getD (.vnum 0)),
                ("transaction_id", (pyGet tx "id").getD .vnull),
                ("source", .vstr "transaction")]
       related := [] }]
  else []

/-- _handle_transaction_added: update the budget, then goal progress for
income or Savings transactions, then the (placeholder) anomaly check. -/
def handleTransactionAdded (tx : List (String × Value)) : List EmitCall :=
  updateBudgetFromTransaction tx ++
    (if pyGet tx "type" matches some (.vstr "income") then
       updateGoalProgressFromTransaction tx
     else if pyGet tx "category" matches some (.vstr "Savings") then
       updateGoalProgressFromTransaction tx
     else [])

/-- _handle_goal_progress_updated: a truthy milestone_achieved field emits a
milestone_achieved event; the budget adjustment hook is a placeholder. -/
def handleGoalProgressUpdated (gd : List (String × Value)) : List EmitCall :=
  if truthyOpt (pyGet gd "milestone_achieved") then
    [{ event_type := .milestone_achieved
       data := [("goal_id", (pyGet gd "goal_id").getD .vnull),
                ("milestone", (pyGet gd "milestone_achieved").getD .vnull),
                ("celebration_message", (pyGet gd "celebration_message").getD .vnull)]
       related := [] }]
  else []

/-- _process_event_by_type: dispatch on the event kind; kinds without a
handler do nothing.  The result is the list of emit_event calls made, or the
exception that escaped the handler. -/
def processEventByType (e : SyncEvent) : Except String (List EmitCall) :=
  match e.event_type with
  | .receipt_processed => handleReceiptProcessed e.data
  | .transaction_added => .ok (handleTransactionAdded e.data)
  | .goal_progress_updated => .ok (handleGoalProgressUpdated e.data)
  | .budget_updated => .ok []
  | _ => .ok []

/-! ### Realtime sync: per-event processing (_handle_event)

The stages run inside one try block: kind-specific logic, subscriber
notification (each callback in its own try), WebSocket fan-out (each send in
its own try; failing connections are collected and removed), the
related-entities update (a pure logging placeholder, _update_entity does
nothing and cannot raise, so it is not modelled), then the processed flag is
set.  An exception escaping a stage is caught by the whole-event except
branch, so the remaining stages of that event are skipped; the consumer loop
then continues with the next event. -/

/-- The environment of one _handle_event call: for each subscriber callback
registered for this event kind, and for each live connection of this user,
whether that callback/send raises. -/
structure HandleCtx where
  subFails : List Bool
  connFails : List Bool

/-- Observable outcome of one _handle_event call. -/
structure HandleResult where
  emitted : List EmitCall
  callbacksInvoked : ℕ
  wireMessage : Option WireMessage
  sendsAttempted : ℕ
  removedConnections : List ℕ
  processed : Bool

/-- _handle_event.  On kind-specific logic failure the remaining stages are
skipped and the event stays unprocessed.  Otherwise every callback is invoked
(failures caught one by one), the message serialized from the still-unset
processed flag is sent to every connection (failures caught one by one, those
connections removed afterwards), and the event is marked processed. -/
def handleEvent (ctx : HandleCtx) (e : SyncEvent) : HandleResult :=
  match processEventByType e with
  | .error _ =>
    { emitted := [], callbacksInvoked := 0, wireMessage := none,
      sendsAttempted := 0, removedConnections := [], processed := false }
  | .ok emits =>
    { emitted := emits
      callbacksInvoked := ctx.subFails.length
      wireMessage :=
        if ctx.connFails.isEmpty then none
        else some { msgType := "sync_event", event := e.toWire }
      sendsAttempted := ctx.connFails.length
      removedConnections :=
        (ctx.connFails.enum.filterMap (fun ib => if ib.2 then some ib.1 else none))
      processed := true }

/-- The consumer loop body applied along a queue segment: _process_events
catches every exception of an iteration, so each event is handled exactly
once and a failure never stops the traversal. -/
def consumeQueue (ctx : HandleCtx) (es : List SyncEvent) : List HandleResult :=
  es.map (handleEvent ctx)

/-! ### Realtime sync: cancellation model

asyncio delivers a requested cancellation at the next await point of the
task, and neither _process_events nor _handle_event catches CancelledError
(except Exception does not catch it).  The await points of one loop iteration
handling an event are: the queue wait (index 0), then one await per
emit_event the kind-specific logic performs (the queue put), one per
subscriber callback, one per WebSocket send; marking processed and task_done
are synchronous, after which the next suspension is the next queue wait. -/

/-- Number of await points strictly inside the handling of an event
(cancellation delivered at any of them abandons the event mid-processing). -/
def handlingSuspensions (ctx : HandleCtx) (e : SyncEvent) : ℕ :=
  match processEventByType e with
  | .error _ => 0
  | .ok emits => emits.length + ctx.subFails.length + ctx.connFails.length

/-- Outcome of one loop iteration when cancellation is delivered at await
point k: k = 0 is the idle queue wait (a full-event boundary, nothing
dequeued); 1 ≤ k ≤ handlingSuspensions is mid-processing, with only the work
before that await point done and the processed flag never set; greater k
means the iteration completes and cancellation lands at the next queue wait. -/
structure IterationOutcome where
  dequeued : Bool
  emittedCount : ℕ
  callbacksInvoked : ℕ
  sendsAttempted : ℕ
  processed : Bool
  abortedMidEvent : Bool
deriving DecidableEq, Repr

/-- One consumer-loop iteration on event e with cancellation delivered at
suspension index k (counting the leading queue wait as index 0). -/
def runIterationCancelledAt (ctx : HandleCtx) (e : SyncEvent) (k : ℕ) :
    IterationOutcome :=
  if k = 0 then
    { dequeued := false, emittedCount := 0, callbacksInvoked := 0,
      sendsAttempted := 0, processed := false, abortedMidEvent := false }
  else
    match processEventByType e with
    | .error _ =>
      { dequeued := true, emittedCount := 0, callbacksInvoked := 0,
        sendsAttempted := 0, processed := false, abortedMidEvent := false }
    | .ok emits =>
      let total := emits.length + ctx.subFails.length + ctx.connFails.length
      if k ≤ total then
        let done := k - 1
        { dequeued := true
          emittedCount := min done emits.length
          callbacksInvoked := min (done - emits.length) ctx.subFails.length
          sendsAttempted := min (done - emits.length - ctx.subFails.length)
            ctx.connFails.length
          processed := false
          abortedMidEvent := true }
      else
        { dequeued := true, emittedCount := emits.length,
          callbacksInvoked := ctx.subFails.length,
          sendsAttempted := ctx.connFails.length,
          processed := true, abortedMidEvent := false }

/-- Bus lifecycle state: the running flag and whether the background consumer
task is alive. -/
structure BusState where
  running : Bool
  taskAlive : Bool
deriving DecidableEq, Repr

/-- stop(): clear the running flag, cancel the consumer task and await it,
so the task is no longer alive when stop returns. -/
def stopBus (_s : BusState) : BusState :=
  { running := false, taskAlive := false }

/-! ### Concrete inputs used by counterexamples and witnesses -/

/-- Engine parameters for concrete runs.  Every concrete batch below has
fewer than 10 rows, so the isolation-forest model is short-circuited away,
and a zero sample variance, so the square-root oracle is never consulted:
both choices are irrelevant to the runs. -/
def exampleParams : EngineParams :=
  { isoModelE := fun _ => .ok [], sqrtQ := fun _ => 0 }

/-- Five same-amount transactions: three daytime ones, then two at 3:00 am
two minutes apart (labels 3 and 4). -/
def nightPairBatch : List Txn :=
  [⟨50, "A", 720⟩, ⟨50, "B", 780⟩, ⟨50, "C", 840⟩, ⟨50, "D", 1620⟩, ⟨50, "E", 1622⟩]

/-- Current batch of two noon/afternoon transactions, same amounts. -/
def twoNoonBatch : List Txn :=
  [⟨50, "CurCat0", 720⟩, ⟨50, "CurCat1", 780⟩]

/-- A one-row historical batch whose transaction is at 3:00 am. -/
def oneNightHist : List Txn :=
  [⟨50, "HistCat", 180⟩]

/-- A labeled five-row frame with amounts 0, 10, 20, 30, 45 (Q1 = 10,
Q3 = 30, IQR = 20). -/
def iqrFrame : List (ℕ × Txn) :=
  ([⟨0, "a", 0⟩, ⟨10, "b", 100⟩, ⟨20, "c", 200⟩, ⟨30, "d", 300⟩,
    ⟨45, "e", 400⟩] : List Txn).enum

/-- A receipt-processed payload whose truthy parsed_data is not a dict:
the attribute access in the handler raises on it. -/
def badParsedEvent : SyncEvent :=
  mkSyncEvent "e1" .receipt_processed "u1"
    [("success", .vbool true), ("parsed_data", .vstr "garbled")] [] nowIso

/-- One healthy subscriber and one healthy connection. -/
def oneSubOneConn : HandleCtx := { subFails := [false], connFails := [false] }

/-- A receipt-processed payload with a successful parse but no total field. -/
def noTotalData : List (String × Value) :=
  [("success", .vbool true), ("parsed_data", .vdict [("category", .vstr "X")])]

/-- The parsed receipt fields of the spec scenario: total 42.50, category
Groceries, vendor Acme, date 2024-01-05. -/
def groceriesParsed : List (String × Value) :=
  [("total", .vnum (85 / 2)), ("category", .vstr "Groceries"),
   ("vendor", .vstr "Acme"), ("date", .vstr "2024-01-05")]

/-- The receipt-processed payload of the spec scenario. -/
def groceriesData : List (String × Value) :=
  [("success", .vbool true), ("parsed_data", .vdict groceriesParsed)]

/-- A successfully parsed receipt-processed event. -/
def groceriesEvent : SyncEvent :=
  mkSyncEvent "e2" .receipt_processed "u1" groceriesData [] nowIso

/-- The single transaction_added emission the groceries event produces. -/
def groceriesEmit : EmitCall :=
  { event_type := .transaction_added
    data := [("amount", .vnum (85 / 2)), ("category", .vstr "Groceries"),
             ("description", .vstr "Receipt from Acme"),
             ("date", .vstr "2024-01-05"), ("type", .vstr "expense"),
             ("receipt_id", .vnull), ("receipt_url", .vnull)]
    related := ["budget", "goal"] }

/-- An event of a kind whose handler never raises, used for fan-out runs. -/
def plainEvent : SyncEvent :=
  mkSyncEvent "e3" .budget_updated "u1" [("category", .vstr "Dining")] [] nowIso

/-- The wire message the fan-out stage builds for plainEvent. -/
def plainMsg : WireMessage :=
  { msgType := "sync_event", event := plainEvent.toWire }

/-- The first consolidated record the engine produces on nightPairBatch. -/
def nightRec3 : Consolidated :=
  { transaction_index := 3, transaction_data := ⟨50, "D", 1620⟩,
    detection_methods := ["business_rule_unusual_time"],
    composite_score := 1, confidence := 1 / 4, severity := .medium,
    reasons := ["Transaction at unusual hour"], method_count := 1 }

/-- The second consolidated record the engine produces on nightPairBatch:
two of the three business sub-rules fired for label 4, so its
detection_methods has two entries although only one of the four detection
methods (business rules) flagged it. -/
def nightRec4 : Consolidated :=
  { transaction_index := 4, transaction_data := ⟨50, "E", 1622⟩,
    detection_methods := ["business_rule_unusual_time",
                          "business_rule_rapid_transactions"],
    composite_score := 1, confidence := 1 / 2, severity := .medium,
    reasons := ["Transaction at unusual hour",
                "Multiple transactions in short time period"],
    method_count := 2 }

/-- The single consolidated record the engine produces on twoNoonBatch with
oneNightHist: the flag came from the historical 3 am row (combined label 0),
yet the record carries the noon transaction of the current batch. -/
def noonRec0 : Consolidated :=
  { transaction_index := 0, transaction_data := ⟨50, "CurCat0", 720⟩,
    detection_methods := ["business_rule_unusual_time"],
    composite_score := 1, confidence := 1 / 4, severity := .medium,
    reasons := ["Transaction at unusual hour"], method_count := 1 }

/-- The four method-group names of the engine, in run order. -/
def allMethodNames : List String :=
  ["isolation_forest", "statistical", "zscore", "business_rules"]

/-- A labeled five-row frame with amounts 0, 10, 20, 30, 1000: the last row
is far outside the Tukey fences. -/
def iqrOutlierFrame : List (ℕ × Txn) :=
  ([⟨0, "a", 0⟩, ⟨10, "b", 100⟩, ⟨20, "c", 200⟩, ⟨30, "d", 300⟩,
    ⟨1000, "e", 400⟩] : List Txn).enum

/-- Some concrete raw flags, used to instantiate detector outcomes. -/
def someFlagA : RawFlag :=
  { index := 0, method := "zscore", score := 5, severity := .high }

/-- Another concrete raw flag. -/
def someFlagB : RawFlag :=
  { index := 0, method := "business_rule_unusual_time", score := 1,
    severity := .medium }

end Finlytics

namespace Finlytics

/-! ## Theorems -/

/-! ### Consolidation lemmas shared across claims -/

theorem addFlag_invariant {P : PendingRec → Prop} {current : List Txn}
    (hupd : ∀ q f, P q → P (updRec q f))
    (hfresh : ∀ f : RawFlag, f.index < current.length → P (freshRec current f))
    {acc : List PendingRec} (f : RawFlag) (hacc : ∀ q ∈ acc, P q) :
    ∀ pr ∈ addFlag current acc f, P pr := by
  intro pr hpr
  unfold addFlag at hpr
  split at hpr
  · obtain ⟨q, hq, hqe⟩ := List.mem_map.mp hpr
    by_cases hqi : q.idx = f.index
    · rw [if_pos hqi] at hqe
      exact hqe ▸ hupd q f (hacc q hq)
    · rw [if_neg hqi] at hqe
      exact hqe ▸ hacc q hq
  · split at hpr
    · rcases List.mem_append.mp hpr with h | h
      · exact hacc pr h
      · rw [List.mem_singleton] at h
        exact h ▸ hfresh f (by assumption)
    · exact hacc pr hpr

theorem foldl_addFlag_invariant {P : PendingRec → Prop} {current : List Txn}
    (hupd : ∀ q f, P q → P (updRec q f))
    (hfresh : ∀ f : RawFlag, f.index < current.length → P (freshRec current f)) :
    ∀ (flags : List RawFlag) (acc : List PendingRec), (∀ q ∈ acc, P q) →
      ∀ pr ∈ flags.foldl (addFlag current) acc, P pr := by
  intro flags
  induction flags with
  | nil => intro acc hacc pr hpr; exact hacc pr hpr
  | cons f fs ih =>
    intro acc hacc
    exact ih _ (addFlag_invariant hupd hfresh f hacc)

theorem consolidatePending_invariant {P : PendingRec → Prop} {current : List Txn}
    (hupd : ∀ q f, P q → P (updRec q f))
    (hfresh : ∀ f : RawFlag, f.index < current.length → P (freshRec current f))
    (results : List (String × List RawFlag)) :
    ∀ pr ∈ consolidatePending results current, P pr := by
  suffices h : ∀ (gs : List (String × List RawFlag)) (acc : List PendingRec),
      (∀ q ∈ acc, P q) →
      ∀ pr ∈ gs.foldl (fun acc grp => grp.2.foldl (addFlag current) acc) acc, P pr by
    exact h results [] (by intro q hq; exact absurd hq (List.not_mem_nil q))
  intro gs
  induction gs with
  | nil => intro acc hacc pr hpr; exact hacc pr hpr
  | cons g gs ih =>
    intro acc hacc
    exact ih _ (foldl_addFlag_invariant hupd hfresh g.2 acc hacc)

theorem consolidatePending_bounds (results : List (String × List RawFlag))
    (current : List Txn) :
    ∀ pr ∈ consolidatePending results current,
      pr.idx < current.length ∧ pr.data = current.getD pr.idx dummyTxn := by
  refine consolidatePending_invariant ?_ ?_ results
  · intro q f h; exact h
  · intro f hf; exact ⟨hf, rfl⟩

theorem addFlag_idx_map (current : List Txn) (acc : List PendingRec) (f : RawFlag) :
    (addFlag current acc f).map PendingRec.idx
      = addIdx current.length (acc.map PendingRec.idx) f := by
  have hmem : acc.any (fun pr => pr.idx = f.index) = true
      ↔ f.index ∈ acc.map PendingRec.idx := by
    constructor
    · intro h
      obtain ⟨pr, hpr, he⟩ := List.any_eq_true.mp h
      exact List.mem_map.mpr ⟨pr, hpr, of_decide_eq_true he⟩
    · intro h
      obtain ⟨pr, hpr, he⟩ := List.mem_map.mp h
      exact List.any_eq_true.mpr ⟨pr, hpr, decide_eq_true he⟩
  unfold addFlag addIdx
  by_cases h : acc.any (fun pr => pr.idx = f.index) = true
  · rw [if_pos h, if_pos (hmem.mp h), List.map_map]
    refine List.map_congr_left ?_
    intro pr _
    simp only [Function.comp_apply]
    by_cases hq : pr.idx = f.index
    · rw [if_pos hq]; rfl
    · rw [if_neg hq]
  · rw [if_neg h, if_neg (fun hin => h (hmem.mpr hin))]
    by_cases hlt : f.index < current.length
    · rw [if_pos hlt, if_pos hlt, List.map_append]
      rfl
    · rw [if_neg hlt, if_neg hlt]

theorem foldl_addFlag_idx_map (current : List Txn) :
    ∀ (flags : List RawFlag) (acc : List PendingRec),
      (flags.foldl (addFlag current) acc).map PendingRec.idx
        = flags.foldl (addIdx current.length) (acc.map PendingRec.idx) := by
  intro flags
  induction flags with
  | nil => intro acc; rfl
  | cons f fs ih =>
    intro acc
    simp only [List.foldl_cons, ih, addFlag_idx_map]

theorem consolidatePending_idx_map (results : List (String × List RawFlag))
    (current : List Txn) :
    (consolidatePending results current).map PendingRec.idx
      = encounterOrder results current.length := by
  unfold consolidatePending encounterOrder
  suffices h : ∀ (gs : List (String × List RawFlag)) (acc : List PendingRec),
      (gs.foldl (fun acc grp => grp.2.foldl (addFlag current) acc) acc).map PendingRec.idx
        = gs.foldl (fun seen grp => grp.2.foldl (addIdx current.length) seen)
            (acc.map PendingRec.idx) by
    exact h results []
  intro gs
  induction gs with
  | nil => intro acc; rfl
  | cons g gs ih =>
    intro acc
    simp only [List.foldl_cons, ih, foldl_addFlag_idx_map]

theorem addIdx_nodup (n : ℕ) (seen : List ℕ) (f : RawFlag) (h : seen.Nodup) :
    (addIdx n seen f).Nodup := by
  unfold addIdx
  by_cases hin : f.index ∈ seen
  · rw [if_pos hin]; exact h
  · rw [if_neg hin]
    by_cases hlt : f.index < n
    · rw [if_pos hlt]
      simp [List.nodup_append, h, hin]
    · rw [if_neg hlt]; exact h

theorem foldl_addIdx_nodup (n : ℕ) :
    ∀ (fs : List RawFlag) (seen : List ℕ), seen.Nodup →
      (fs.foldl (addIdx n) seen).Nodup := by
  intro fs
  induction fs with
  | nil => intro seen hs; exact hs
  | cons f fs ih =>
    intro seen hs
    exact ih _ (addIdx_nodup n seen f hs)

theorem encounterOrder_nodup (results : List (String × List RawFlag)) (n : ℕ) :
    (encounterOrder results n).Nodup := by
  unfold encounterOrder
  suffices h : ∀ (gs : List (String × List RawFlag)) (seen : List ℕ), seen.Nodup →
      (gs.foldl (fun seen grp => grp.2.foldl (addIdx n) seen) seen).Nodup by
    exact h results [] List.nodup_nil
  intro gs
  induction gs with
  | nil => intro seen hs; exact hs
  | cons g gs ih =>
    intro seen hs
    exact ih _ (foldl_addIdx_nodup n g.2 seen hs)

theorem mem_consolidate_iff {results : List (String × List RawFlag)}
    {current : List Txn} {rec : Consolidated} :
    rec ∈ consolidate results current ↔ rec ∈ consolidateUnsorted results current :=
  (List.perm_insertionSort consolidateLE _).mem_iff

theorem consolidateUnsorted_idx_map (results : List (String × List RawFlag))
    (current : List Txn) :
    (consolidateUnsorted results current).map Consolidated.transaction_index
      = (consolidatePending results current).map PendingRec.idx := by
  unfold consolidateUnsorted
  rw [List.map_map]
  exact List.map_congr_left (fun pr _ => rfl)

instance : IsTotal Consolidated consolidateLE :=
  ⟨fun a b => le_total b.composite_score a.composite_score⟩

instance : IsTrans Consolidated consolidateLE :=
  ⟨fun _ _ _ hab hbc => le_trans hbc hab⟩

/-! ### C8 — ranking order and stability -/

/-- C8: the consolidated anomaly list is sorted descending by composite
score; the sort is stable, so records with equal composite scores keep their
pre-sort relative order; and the pre-sort order is exactly the order in which
flagged (in-range) transaction indices were first encountered during
consolidation. -/
theorem c8_ranking_stability (results : List (String × List RawFlag))
    (current : List Txn) :
    (consolidate results current).Pairwise consolidateLE
    ∧ (∀ c : ℚ,
        (consolidate results current).filter
            (fun r => decide (r.composite_score = c))
          = (consolidateUnsorted results current).filter
              (fun r => decide (r.composite_score = c)))
    ∧ (consolidateUnsorted results current).map Consolidated.transaction_index
        = encounterOrder results current.length := by
  refine ⟨List.sorted_insertionSort consolidateLE _, ?_, ?_⟩
  · intro c
    show (List.insertionSort consolidateLE (consolidateUnsorted results current)).filter
          (fun r => decide (r.composite_score = c))
        = (consolidateUnsorted results current).filter
            (fun r => decide (r.composite_score = c))
    generalize consolidateUnsorted results current = pre
    set p : Consolidated → Bool := fun r => decide (r.composite_score = c) with hp
    have hpair : (pre.filter p).Pairwise consolidateLE := by
      refine List.pairwise_of_forall_mem_list ?_
      intro a ha b hb
      have hac : a.composite_score = c := of_decide_eq_true (List.mem_filter.mp ha).2
      have hbc : b.composite_score = c := of_decide_eq_true (List.mem_filter.mp hb).2
      unfold consolidateLE
      rw [hac, hbc]
    have hsub : List.Sublist (pre.filter p) (List.insertionSort consolidateLE pre) :=
      List.sublist_insertionSort hpair (List.filter_sublist pre)
    have hff : (pre.filter p).filter p = pre.filter p :=
      List.filter_eq_self.mpr (fun a ha => (List.mem_filter.mp ha).2)
    have hsub2 : List.Sublist (pre.filter p)
        ((List.insertionSort consolidateLE pre).filter p) := by
      have h2 := hsub.filter p
      rwa [hff] at h2
    have hlen : ((List.insertionSort consolidateLE pre).filter p).length
        = (pre.filter p).length :=
      ((List.perm_insertionSort consolidateLE pre).filter p).length_eq
    exact (hsub2.eq_of_length hlen.symm).symm
  · rw [consolidateUnsorted_idx_map, consolidatePending_idx_map]

/-! ### C4 — index uniqueness and the transaction data lookup -/

/-- C4 (amended): each transaction index appears at most once in the
consolidated list (raw hits for one index are merged), and every record's
transaction data is the current-batch payload at position transaction_index,
copied verbatim, with the index always below the current batch length.  The
index itself, however, is the flagged row's label in the combined
historical-plus-current frame, so it names the flagged current transaction
only when the historical batch is empty (see the counterexample). -/
theorem c4_consolidation_indexing (results : List (String × List RawFlag))
    (current : List Txn) :
    List.Nodup ((consolidate results current).map Consolidated.transaction_index)
    ∧ ∀ rec ∈ consolidate results current,
        rec.transaction_index < current.length
        ∧ rec.transaction_data = current.getD rec.transaction_index dummyTxn := by
  constructor
  · have hperm : List.Perm
        ((consolidate results current).map Consolidated.transaction_index)
        ((consolidateUnsorted results current).map Consolidated.transaction_index) :=
      (List.perm_insertionSort consolidateLE _).map _
    rw [hperm.nodup_iff, consolidateUnsorted_idx_map, consolidatePending_idx_map]
    exact encounterOrder_nodup results current.length
  · intro rec hrec
    obtain ⟨pr, hpr, rfl⟩ := List.mem_map.mp (mem_consolidate_iff.mp hrec)
    have hb := consolidatePending_bounds results current pr hpr
    exact ⟨hb.1, hb.2⟩

/-- C4 counterexample: with the non-empty historical batch oneNightHist, the
engine consolidates a record whose only detection method is the 2-to-5-am
rule while its transaction data is the noon (hour 12) transaction of the
current batch: label 0 names the historical 3 am row, not a flagged current
transaction, so transaction_data is not the flagged transaction's payload. -/
theorem c4_counterexample :
    detectAnomalies exampleParams twoNoonBatch oneNightHist
        = .ok [noonRec0] allMethodNames
    ∧ noonRec0.detection_methods = ["business_rule_unusual_time"]
    ∧ hourOf noonRec0.transaction_data = 12
    ∧ hourOf ⟨50, "HistCat", 180⟩ = 3
    ∧ oneNightHist = [⟨50, "HistCat", 180⟩] := by
  refine ⟨by decide, by decide, by decide, by decide, by decide⟩

/-- Witness for c4_consolidation_indexing at a concrete input. -/
theorem c4_consolidation_indexing_witness :
    noonRec0.transaction_index < twoNoonBatch.length
    ∧ noonRec0.transaction_data
        = twoNoonBatch.getD noonRec0.transaction_index dummyTxn :=
  (c4_consolidation_indexing
    [("isolation_forest", []), ("statistical", []), ("zscore", []),
     ("business_rules",
       [{ index := 0, method := "business_rule_unusual_time", score := 1,
          severity := .medium,
          reason := some "Transaction at unusual hour" }])]
    twoNoonBatch).2 noonRec0 (by decide)

/-! ### C1 — the confidence field -/

/-- Helper: shape of a successful engine run on a non-empty batch: the four
method groups in run order, with whatever flags the isolation-forest step
produced (nothing below depends on them). -/
theorem detectAnomalies_ok_shape (p : EngineParams) (current hist : List Txn)
    (h : current ≠ []) :
    ∃ isoFlags : List RawFlag,
      detectAnomalies p current hist =
        .ok (consolidate
              [("isolation_forest", isoFlags),
               ("statistical", statisticalOutlierDetection (engineerFeatures current hist)),
               ("zscore", zscoreDetection p (engineerFeatures current hist)),
               ("business_rules", businessRuleDetection (engineerFeatures current hist) hist)]
              current)
            allMethodNames := by
  have hne : current.isEmpty = false := by
    cases current with
    | nil => exact absurd rfl h
    | cons a l => rfl
  by_cases h10 : (engineerFeatures current hist).length < 10
  · refine ⟨[], ?_⟩
    simp [detectAnomalies, detectAnomaliesE, runDetectionMethodsE,
      isolationForestBody, hne, h10, allMethodNames]
  · cases hm : p.isoModelE (engineerFeatures current hist) with
    | ok flags =>
      refine ⟨flags, ?_⟩
      simp [detectAnomalies, detectAnomaliesE, runDetectionMethodsE,
        isolationForestBody, hne, h10, hm, allMethodNames]
    | error e =>
      refine ⟨[], ?_⟩
      simp [detectAnomalies, detectAnomaliesE, runDetectionMethodsE,
        isolationForestBody, hne, h10, hm, allMethodNames]

/-- Helper: every consolidated record's confidence divides the length of its
detection_methods list (one entry per raw flag merged into it) by the number
of method groups, and method_count is that same length. -/
theorem confidence_of_mem_consolidate {results : List (String × List RawFlag)}
    {current : List Txn} {rec : Consolidated}
    (h : rec ∈ consolidate results current) :
    rec.confidence = (rec.detection_methods.length : ℚ) / (results.length : ℚ)
    ∧ rec.method_count = rec.detection_methods.length := by
  obtain ⟨pr, hpr, rfl⟩ := List.mem_map.mp (mem_consolidate_iff.mp h)
  exact ⟨rfl, rfl⟩

/-- C1 (amended): for every consolidated anomaly of a successful engine run,
confidence equals the number of raw detector flags merged into that record
divided by 4 (the number of method groups) — each business sub-rule firing
counts separately, so this is not the fraction of distinct detection methods
and is not bounded by 1 in general. -/
theorem c1_confidence_formula (p : EngineParams) (current hist : List Txn)
    (recs : List Consolidated) (names : List String) (rec : Consolidated)
    (hok : detectAnomalies p current hist = .ok recs names) (hmem : rec ∈ recs) :
    rec.confidence = (rec.detection_methods.length : ℚ) / 4
    ∧ rec.method_count = rec.detection_methods.length := by
  by_cases hc : current = []
  · subst hc
    unfold detectAnomalies detectAnomaliesE at hok
    rw [List.isEmpty_nil] at hok
    simp only [if_true] at hok
    injection hok with h1 h2
    subst h1
    exact absurd hmem (List.not_mem_nil rec)
  · obtain ⟨iso, heq⟩ := detectAnomalies_ok_shape p current hist hc
    rw [heq] at hok
    injection hok with h1 h2
    subst h1
    have hres := confidence_of_mem_consolidate hmem
    refine ⟨?_, hres.2⟩
    rw [hres.1]
    norm_num

/-- C1 counterexample: on nightPairBatch (no historical data) the engine
run ends with a record (label 4) flagged by two sub-rules of the single
business-rules method and by no other method; its confidence is 2/4 = 1/2,
not the claimed 1/4 fraction of detection methods that flagged it. -/
theorem c1_counterexample :
    detectAnomalies exampleParams nightPairBatch []
        = .ok [nightRec3, nightRec4] allMethodNames
    ∧ nightRec4.detection_methods
        = ["business_rule_unusual_time", "business_rule_rapid_transactions"]
    ∧ nightRec4.confidence = 1 / 2
    ∧ (1 / 2 : ℚ) ≠ 1 / 4 := by
  refine ⟨by decide, by decide, by decide, by decide⟩

/-- Witness for c1_confidence_formula at a concrete input. -/
theorem c1_confidence_formula_witness :
    nightRec4.confidence = (nightRec4.detection_methods.length : ℚ) / 4
    ∧ nightRec4.method_count = nightRec4.detection_methods.length :=
  c1_confidence_formula exampleParams nightPairBatch []
    [nightRec3, nightRec4] allMethodNames nightRec4 (by decide) (by decide)

/-! ### C5 — the statistical IQR detector -/

/-- Helper: the feature frames the engine builds always have distinct labels
(they are the row positions of the combined frame, kept by the date sort), so
the distinct-labels hypothesis of c5_statistical_iqr holds for every frame
the pipeline passes to the detector. -/
theorem engineerFeatures_labels_nodup (current hist : List Txn) :
    List.Nodup ((engineerFeatures current hist).map Prod.fst) := by
  unfold engineerFeatures
  set allRows := if hist.isEmpty then current else hist ++ current with hall
  have hbase : List.Nodup ((allRows.enum).map Prod.fst) := by
    rw [List.enum_map_fst]
    exact List.nodup_range _
  by_cases hlen : allRows.length > 7
  · rw [if_pos hlen]
    have hperm : List.Perm ((sortByDate allRows.enum).map Prod.fst)
        ((allRows.enum).map Prod.fst) :=
      (List.perm_insertionSort _ _).map _
    exact hperm.nodup_iff.mpr hbase
  · rw [if_neg hlen]
    exact hbase

/-- Helper: rows of a frame with no duplicate labels are determined by their
label. -/
theorem label_eq_of_nodup {fs : List (ℕ × Txn)}
    (h : List.Nodup (fs.map Prod.fst)) {a b : ℕ × Txn}
    (ha : a ∈ fs) (hb : b ∈ fs) (hab : a.1 = b.1) : a = b :=
  List.inj_on_of_nodup_map h ha hb hab

/-- C5 (amended): on a frame of at least 5 rows with distinct labels, the
statistical detector flags exactly the rows whose amount lies outside the
interval from Q1 - 1.5 IQR to Q3 + 1.5 IQR (the claim wrote Q1 + 1.5 IQR for
the upper fence; the code uses Q3 + 1.5 IQR), and a flag's severity is high
exactly when the amount is beyond Q1 - 3 IQR or Q3 + 3 IQR, else medium. -/
theorem c5_statistical_iqr (fs : List (ℕ × Txn))
    (hlen : 4 < fs.length) (hnodup : List.Nodup (fs.map Prod.fst))
    (lt : ℕ × Txn) (hmem : lt ∈ fs) :
    ((∃ fl ∈ statisticalOutlierDetection fs, fl.index = lt.1)
      ↔ (lt.2.amount < quantile (fs.map (fun x => x.2.amount)) (1 / 4)
            - 3 / 2 * (quantile (fs.map (fun x => x.2.amount)) (3 / 4)
                - quantile (fs.map (fun x => x.2.amount)) (1 / 4))
          ∨ lt.2.amount > quantile (fs.map (fun x => x.2.amount)) (3 / 4)
            + 3 / 2 * (quantile (fs.map (fun x => x.2.amount)) (3 / 4)
                - quantile (fs.map (fun x => x.2.amount)) (1 / 4))))
    ∧ (∀ fl ∈ statisticalOutlierDetection fs, fl.index = lt.1 →
        (fl.severity = .high
          ↔ (lt.2.amount > quantile (fs.map (fun x => x.2.amount)) (3 / 4)
                + 3 * (quantile (fs.map (fun x => x.2.amount)) (3 / 4)
                    - quantile (fs.map (fun x => x.2.amount)) (1 / 4))
              ∨ lt.2.amount < quantile (fs.map (fun x => x.2.amount)) (1 / 4)
                - 3 * (quantile (fs.map (fun x => x.2.amount)) (3 / 4)
                    - quantile (fs.map (fun x => x.2.amount)) (1 / 4))))) := by
  have hdet : statisticalOutlierDetection fs
      = fs.filterMap (fun x =>
          if x.2.amount < quantile (fs.map (fun x => x.2.amount)) (1 / 4)
                - 3 / 2 * (quantile (fs.map (fun x => x.2.amount)) (3 / 4)
                    - quantile (fs.map (fun x => x.2.amount)) (1 / 4))
              ∨ x.2.amount > quantile (fs.map (fun x => x.2.amount)) (3 / 4)
                + 3 / 2 * (quantile (fs.map (fun x => x.2.amount)) (3 / 4)
                    - quantile (fs.map (fun x => x.2.amount)) (1 / 4)) then
            some { index := x.1
                   method := "statistical_iqr"
                   score := |x.2.amount - quantile (fs.map (fun x => x.2.amount)) (1 / 2)|
                   severity :=
                     if x.2.amount > quantile (fs.map (fun x => x.2.amount)) (3 / 4)
                           + 3 * (quantile (fs.map (fun x => x.2.amount)) (3 / 4)
                               - quantile (fs.map (fun x => x.2.amount)) (1 / 4))
                         ∨ x.2.amount < quantile (fs.map (fun x => x.2.amount)) (1 / 4)
                           - 3 * (quantile (fs.map (fun x => x.2.amount)) (3 / 4)
                               - quantile (fs.map (fun x => x.2.amount)) (1 / 4))
                     then Severity.high else Severity.medium
                   reason := some "Amount is outside normal range" }
          else none) := by
    rw [statisticalOutlierDetection, if_pos hlen]
  constructor
  · constructor
    · rintro ⟨fl, hfl, hidx⟩
      rw [hdet] at hfl
      obtain ⟨a, ha, hga⟩ := List.mem_filterMap.mp hfl
      split at hga
      · rename_i hcond
        rw [Option.some_inj] at hga
        subst hga
        have hax : a.1 = lt.1 := hidx
        have heq := label_eq_of_nodup hnodup ha hmem hax
        subst heq
        exact hcond
      · exact absurd hga (Option.noConfusion)
    · intro hcond
      rw [hdet]
      refine ⟨_, List.mem_filterMap.mpr ⟨lt, hmem, if_pos hcond⟩, ?_⟩
      rfl
  · intro fl hfl hidx
    rw [hdet] at hfl
    obtain ⟨a, ha, hga⟩ := List.mem_filterMap.mp hfl
    split at hga
    · rw [Option.some_inj] at hga
      subst hga
      have hax : a.1 = lt.1 := hidx
      have heq := label_eq_of_nodup hnodup ha hmem hax
      subst heq
      show (if _ ∨ _ then Severity.high else Severity.medium) = Severity.high ↔ _
      split
      · rename_i hsev
        exact iff_of_true rfl hsev
      · rename_i hsev
        exact iff_of_false (fun hcontra => Severity.noConfusion hcontra) hsev
    · exact absurd hga (Option.noConfusion)

/-- C5 counterexample: on iqrFrame (amounts 0, 10, 20, 30, 45; Q1 = 10,
Q3 = 30, IQR = 20) the code flags nothing, but the claim's interval with
upper fence Q1 + 1.5 IQR = 40 would flag the amount 45 at label 4. -/
theorem c5_counterexample :
    statisticalOutlierDetection iqrFrame = []
    ∧ specStatisticalOutlierFlagged iqrFrame = [4]
    ∧ quantile (iqrFrame.map (fun x => x.2.amount)) (1 / 4) = 10
    ∧ quantile (iqrFrame.map (fun x => x.2.amount)) (3 / 4) = 30
    ∧ (45 : ℚ) > 10 + 3 / 2 * 20
    ∧ ¬ ((45 : ℚ) > 30 + 3 / 2 * 20) := by
  refine ⟨by decide, by decide, by decide, by decide, by decide, by decide⟩

/-- Witness for c5_statistical_iqr at a concrete input: on iqrOutlierFrame
the amount 1000 exceeds Q3 + 1.5 IQR = 60 and is flagged. -/
theorem c5_statistical_iqr_witness :
    ∃ fl ∈ statisticalOutlierDetection iqrOutlierFrame, fl.index = 4 :=
  (c5_statistical_iqr iqrOutlierFrame (by decide) (by decide)
    (4, ⟨1000, "e", 400⟩) (by decide)).1.mpr (by decide)

/-! ### C3 — detector failure semantics -/

/-- C3 counterexample: when a detector body other than the isolation-forest
one raises, the detectors after it never run and the caller receives the
top-level error result, not a consolidated result.  Such failures are
reachable: a non-empty historical batch whose rows lack the amount field
makes the business-rules body raise (the missing-column default is a plain
list, and the array it is coerced to has no dropna attribute); the error
outcome is here placed on the statistical body, which the source equally
leaves without a catch. -/
theorem c3_counterexample :
    detectAnomaliesE (.ok []) (.error "boom") (.ok [someFlagA]) (.ok [someFlagB])
        twoNoonBatch
      = .err "boom" := by
  rfl

/-- C3 (amended): only the isolation-forest detector catches its own
exceptions — its failure degrades to zero flags, the other three detectors
still contribute and the caller receives a normal consolidated result; an
exception in the statistical, z-score or business-rules body instead
propagates to the top-level handler of detect_anomalies, and the caller
receives an error result. -/
theorem c3_detector_failure_semantics :
    (∀ (m : String) (s z b : List RawFlag) (current : List Txn),
      current ≠ [] →
      detectAnomaliesE (.error m) (.ok s) (.ok z) (.ok b) current
        = .ok (consolidate
            [("isolation_forest", []), ("statistical", s), ("zscore", z),
             ("business_rules", b)] current)
            allMethodNames)
    ∧ (∀ (iso : Except String (List RawFlag)) (m : String)
        (z b : Except String (List RawFlag)) (current : List Txn),
        current ≠ [] →
        detectAnomaliesE iso (.error m) z b current = .err m)
    ∧ (∀ (iso : Except String (List RawFlag)) (s : List RawFlag) (m : String)
        (b : Except String (List RawFlag)) (current : List Txn),
        current ≠ [] →
        detectAnomaliesE iso (.ok s) (.error m) b current = .err m)
    ∧ (∀ (iso : Except String (List RawFlag)) (s z : List RawFlag) (m : String)
        (current : List Txn),
        current ≠ [] →
        detectAnomaliesE iso (.ok s) (.ok z) (.error m) current = .err m) := by
  have hne : ∀ current : List Txn, current ≠ [] → current.isEmpty = false := by
    intro current h
    cases current with
    | nil => exact absurd rfl h
    | cons a l => rfl
  refine ⟨?_, ?_, ?_, ?_⟩
  · intro m s z b current h
    simp [detectAnomaliesE, runDetectionMethodsE, hne current h, allMethodNames]
  · intro iso m z b current h
    simp [detectAnomaliesE, runDetectionMethodsE, hne current h]
  · intro iso s m b current h
    simp [detectAnomaliesE, runDetectionMethodsE, hne current h]
  · intro iso s z m current h
    simp [detectAnomaliesE, runDetectionMethodsE, hne current h]

/-- Witness for c3_detector_failure_semantics at a concrete input: the
isolation-forest body failing still yields a normal consolidated result with
the other detectors' flags. -/
theorem c3_detector_failure_semantics_witness :
    detectAnomaliesE (.error "iso down") (.ok []) (.ok [someFlagA])
        (.ok [someFlagB]) twoNoonBatch
      = .ok (consolidate
          [("isolation_forest", []), ("statistical", []), ("zscore", [someFlagA]),
           ("business_rules", [someFlagB])] twoNoonBatch)
          allMethodNames :=
  c3_detector_failure_semantics.1 "iso down" [] [someFlagA] [someFlagB]
    twoNoonBatch (by decide)

/-! ### C2 — stage isolation inside _handle_event -/

/-- C2 counterexample: an exception in the kind-specific logic stage (a
truthy non-dict parsed_data makes the receipt handler raise) skips the
remaining stages of that event: with one subscriber and one connection
registered, no callback is invoked, no message is sent and the event is
never marked processed. -/
theorem c2_counterexample :
    processEventByType badParsedEvent = .error "AttributeError"
    ∧ handleEvent oneSubOneConn badParsedEvent
        = { emitted := [], callbacksInvoked := 0, wireMessage := none,
            sendsAttempted := 0, removedConnections := [], processed := false }
    ∧ oneSubOneConn.subFails.length = 1
    ∧ oneSubOneConn.connFails.length = 1 :=
  ⟨rfl, rfl, rfl, rfl⟩

/-- C2 (amended): subscriber-callback and connection-delivery failures are
isolated — whatever the per-callback and per-connection failure pattern,
every callback is invoked, every connection is attempted and the event is
marked processed; but an exception in the kind-specific logic stage is caught
at whole-event granularity, skipping the remaining stages (the event stays
unprocessed).  The consumer loop continues with the next event either way. -/
theorem c2_stage_isolation :
    (∀ (ctx : HandleCtx) (e : SyncEvent) (emits : List EmitCall),
      processEventByType e = .ok emits →
        (handleEvent ctx e).emitted = emits
        ∧ (handleEvent ctx e).callbacksInvoked = ctx.subFails.length
        ∧ (handleEvent ctx e).sendsAttempted = ctx.connFails.length
        ∧ (handleEvent ctx e).processed = true)
    ∧ (∀ (ctx : HandleCtx) (e : SyncEvent) (m : String),
      processEventByType e = .error m →
        (handleEvent ctx e).callbacksInvoked = 0
        ∧ (handleEvent ctx e).sendsAttempted = 0
        ∧ (handleEvent ctx e).processed = false)
    ∧ (∀ (ctx : HandleCtx) (e : SyncEvent) (es : List SyncEvent),
        consumeQueue ctx (e :: es) = handleEvent ctx e :: consumeQueue ctx es) := by
  refine ⟨?_, ?_, ?_⟩
  · intro ctx e emits h
    refine ⟨?_, ?_, ?_, ?_⟩ <;> simp [handleEvent, h]
  · intro ctx e m h
    refine ⟨?_, ?_, ?_⟩ <;> simp [handleEvent, h]
  · intro ctx e es
    rfl

/-- Witness for c2_stage_isolation at a concrete input: with a failing
subscriber and a failing connection, the callback is still invoked, the send
still attempted, and the event still marked processed. -/
theorem c2_stage_isolation_witness :
    (handleEvent ⟨[true], [true]⟩ plainEvent).callbacksInvoked = 1
    ∧ (handleEvent ⟨[true], [true]⟩ plainEvent).sendsAttempted = 1
    ∧ (handleEvent ⟨[true], [true]⟩ plainEvent).processed = true := by
  have h := c2_stage_isolation.1 ⟨[true], [true]⟩ plainEvent [] rfl
  exact ⟨h.2.1, h.2.2.1, h.2.2.2⟩

/-! ### C6 — receipt events without a successful parse or without a total -/

/-- C6 counterexample: a receipt_processed payload with success true and a
truthy parsed_data that lacks the total field still emits one downstream
transaction_added event — the amount merely defaults to 0. -/
theorem c6_counterexample :
    pyGet [("category", Value.vstr "X")] "total" = none
    ∧ handleReceiptProcessed noTotalData
        = .ok [{ event_type := .transaction_added
                 data := [("amount", .vnum 0), ("category", .vstr "X"),
                          ("description", .vstr "Receipt from Unknown"),
                          ("date", .vstr nowIso), ("type", .vstr "expense"),
                          ("receipt_id", .vnull), ("receipt_url", .vnull)]
                 related := ["budget", "goal"] }] :=
  ⟨rfl, rfl⟩

/-- C6 (amended): a receipt_processed event with falsy success, or with a
missing or falsy parsed_data, emits zero downstream events; handling it still
runs the remaining stages and marks it processed.  A missing total alone does
not suppress the cascade (the counterexample): the synthesized transaction
defaults its amount to 0. -/
theorem c6_no_cascade_on_failure (data : List (String × Value))
    (h : truthyOpt (pyGet data "success") = false
        ∨ truthyOpt (pyGet data "parsed_data") = false) :
    handleReceiptProcessed data = .ok []
    ∧ ∀ (ctx : HandleCtx) (id uid ts : String) (rel : List String),
        (handleEvent ctx (mkSyncEvent id .receipt_processed uid data rel ts)).emitted
          = []
        ∧ (handleEvent ctx (mkSyncEvent id .receipt_processed uid data rel ts)).processed
          = true := by
  have h0 : handleReceiptProcessed data = .ok [] := by
    rcases h with h | h <;> simp [handleReceiptProcessed, h]
  refine ⟨h0, ?_⟩
  intro ctx id uid ts rel
  constructor <;> simp [handleEvent, processEventByType, mkSyncEvent, h0]

/-- Witness for c6_no_cascade_on_failure at a concrete input. -/
theorem c6_no_cascade_on_failure_witness :
    handleReceiptProcessed [("success", Value.vbool false)] = .ok []
    ∧ (handleEvent oneSubOneConn
        (mkSyncEvent "w" .receipt_processed "u1"
          [("success", Value.vbool false)] [] nowIso)).emitted = [] := by
  have h := c6_no_cascade_on_failure [("success", Value.vbool false)] (Or.inl rfl)
  exact ⟨h.1, (h.2 oneSubOneConn "w" "u1" nowIso []).1⟩

/-! ### C7 — cascade completeness for a successfully parsed receipt -/

/-- C7: a receipt_processed event whose payload has success true and parsed
data with total, category, vendor and date emits exactly one downstream
event: a transaction_added whose amount is the extracted total and whose
category is the extracted category, with related entities budget and goal. -/
theorem c7_cascade_completeness (data pd : List (String × Value)) (t c v d : Value)
    (ctx : HandleCtx) (id uid ts : String) (rel : List String)
    (hs : pyGet data "success" = some (.vbool true))
    (hp : pyGet data "parsed_data" = some (.vdict pd))
    (ht : pyGet pd "total" = some t) (hc : pyGet pd "category" = some c)
    (hv : pyGet pd "vendor" = some v) (hd : pyGet pd "date" = some d) :
    (handleEvent ctx (mkSyncEvent id .receipt_processed uid data rel ts)).emitted
      = [{ event_type := .transaction_added
           data := [("amount", t), ("category", c),
                    ("description", .vstr ("Receipt from " ++ pyStr v)),
                    ("date", d), ("type", .vstr "expense"),
                    ("receipt_id", (pyGet data "receipt_id").getD .vnull),
                    ("receipt_url", (pyGet data "receipt_url").getD .vnull)]
           related := ["budget", "goal"] }] := by
  have hpd : pd ≠ [] := by
    intro hnil
    subst hnil
    simp [pyGet] at ht
  have htr : (truthyOpt (pyGet data "success")
      && truthyOpt (pyGet data "parsed_data")) = true := by
    rw [hs, hp]
    simp [truthyOpt, truthy, hpd]
  have h0 : handleReceiptProcessed data
      = .ok [{ event_type := .transaction_added
               data := [("amount", t), ("category", c),
                        ("description", .vstr ("Receipt from " ++ pyStr v)),
                        ("date", d), ("type", .vstr "expense"),
                        ("receipt_id", (pyGet data "receipt_id").getD .vnull),
                        ("receipt_url", (pyGet data "receipt_url").getD .vnull)]
               related := ["budget", "goal"] }] := by
    unfold handleReceiptProcessed
    rw [if_pos htr, hp]
    simp [ht, hc, hv, hd]
  simp [handleEvent, processEventByType, mkSyncEvent, h0]

/-- Witness for c7_cascade_completeness at the spec's concrete scenario. -/
theorem c7_cascade_completeness_witness :
    (handleEvent oneSubOneConn groceriesEvent).emitted = [groceriesEmit] :=
  c7_cascade_completeness groceriesData groceriesParsed
    (.vnum (85 / 2)) (.vstr "Groceries") (.vstr "Acme") (.vstr "2024-01-05")
    oneSubOneConn "e2" "u1" nowIso [] rfl rfl rfl rfl rfl rfl

/-! ### C9 — stop() and cancellation boundaries -/

/-- C9 counterexample: on a successfully parsed receipt event with one
subscriber and one connection, the iteration has three await points inside
its handling; cancellation delivered at the second one (the subscriber
callback await) abandons the event mid-processing: the cascade emission
already happened, but no callback ran, nothing was sent and the event was
never marked processed. -/
theorem c9_counterexample :
    runIterationCancelledAt oneSubOneConn groceriesEvent 2
      = { dequeued := true, emittedCount := 1, callbacksInvoked := 0,
          sendsAttempted := 0, processed := false, abortedMidEvent := true }
    ∧ handlingSuspensions oneSubOneConn groceriesEvent = 3 :=
  ⟨rfl, rfl⟩

/-- C9 (amended): stop() clears the running flag, cancels the consumer task
and awaits it, so the task is gone when stop returns; cancellation delivered
while idling on the queue wait, or after the last await of an iteration, is
safe (no event is left partially processed); but cancellation delivered at
any await point strictly inside the handling of an event abandons that event
mid-processing with its processed flag never set — the never-mid-processing
guarantee does not hold whenever the handling has at least one await point
(a cascade emission, a subscriber callback or a connection send). -/
theorem c9_cancellation_boundaries :
    (∀ s : BusState, (stopBus s).running = false ∧ (stopBus s).taskAlive = false)
    ∧ (∀ (ctx : HandleCtx) (e : SyncEvent),
        (runIterationCancelledAt ctx e 0).dequeued = false
        ∧ (runIterationCancelledAt ctx e 0).abortedMidEvent = false)
    ∧ (∀ (ctx : HandleCtx) (e : SyncEvent) (k : ℕ),
        handlingSuspensions ctx e < k →
        (runIterationCancelledAt ctx e k).abortedMidEvent = false)
    ∧ (∀ (ctx : HandleCtx) (e : SyncEvent) (k : ℕ),
        1 ≤ k → k ≤ handlingSuspensions ctx e →
        (runIterationCancelledAt ctx e k).abortedMidEvent = true
        ∧ (runIterationCancelledAt ctx e k).processed = false) := by
  refine ⟨fun s => ⟨rfl, rfl⟩, fun ctx e => ⟨rfl, rfl⟩, ?_, ?_⟩
  · intro ctx e k hk
    cases hpe : processEventByType e with
    | error m =>
      simp only [handlingSuspensions, hpe] at hk
      have hk0 : k ≠ 0 := by omega
      simp [runIterationCancelledAt, hpe, hk0]
    | ok emits =>
      simp only [handlingSuspensions, hpe] at hk
      have hk0 : k ≠ 0 := by omega
      have hgt : ¬ (k ≤ emits.length + ctx.subFails.length + ctx.connFails.length) := by
        omega
      simp [runIterationCancelledAt, hpe, hk0, hgt]
  · intro ctx e k hk1 hk2
    cases hpe : processEventByType e with
    | error m =>
      simp only [handlingSuspensions, hpe] at hk2
      omega
    | ok emits =>
      simp only [handlingSuspensions, hpe] at hk2
      have hk0 : k ≠ 0 := by omega
      constructor <;> simp [runIterationCancelledAt, hpe, hk0, hk2]

/-- Witness for c9_cancellation_boundaries at a concrete input. -/
theorem c9_cancellation_boundaries_witness :
    (stopBus ⟨true, true⟩).taskAlive = false
    ∧ (runIterationCancelledAt oneSubOneConn groceriesEvent 1).abortedMidEvent = true
    ∧ (runIterationCancelledAt oneSubOneConn groceriesEvent 1).processed = false := by
  have h1 := (c9_cancellation_boundaries.1 ⟨true, true⟩).2
  have h4 := c9_cancellation_boundaries.2.2.2 oneSubOneConn groceriesEvent 1
    (by decide) (by decide)
  exact ⟨h1, h4.1, h4.2⟩

/-! ### C10 — fan-out messages always carry processed false -/

/-- C10: every wire message built by the fan-out stage for an event
constructed by emit_event carries processed false: the processed flag starts
false at construction and is set only after the fan-out stage completed, so
no client ever receives a message with processed true. -/
theorem c10_fanout_processed_false (ctx : HandleCtx) (id uid ts : String)
    (et : EventType) (data : List (String × Value)) (rel : List String)
    (m : WireMessage)
    (h : (handleEvent ctx (mkSyncEvent id et uid data rel ts)).wireMessage = some m) :
    m.event.processed = false
    ∧ (mkSyncEvent id et uid data rel ts).processed = false := by
  refine ⟨?_, rfl⟩
  unfold handleEvent at h
  cases hpe : processEventByType (mkSyncEvent id et uid data rel ts) with
  | error msg =>
    rw [hpe] at h
    exact absurd h (by simp)
  | ok emits =>
    rw [hpe] at h
    dsimp only at h
    split at h
    · exact absurd h (by simp)
    · rw [Option.some_inj] at h
      subst h
      rfl

/-- Witness for c10_fanout_processed_false at a concrete input. -/
theorem c10_fanout_processed_false_witness :
    plainMsg.event.processed = false :=
  (c10_fanout_processed_false ⟨[], [false]⟩ "e3" "u1" nowIso .budget_updated
    [("category", .vstr "Dining")] [] plainMsg rfl).1

end Finlytics
